import Mathlib

set_option maxRecDepth 2048

/-!
# The Agent Times MCP server — verification of the Community Integrity Engine

Shallow embedding, in Lean 4, of the parts of `social.py` and `submissions.py`
that the frozen claims talk about: the sliding-window rate limiter, the text
sanitizer, the anti-spam heuristics, the Jaccard similarity detector, the
comment/citation/endorsement ledger with its thread builder and leaderboard,
and the submission moderation state machine.

Conventions of the embedding:
* Python strings become `String`; character classifications (`isalpha`,
  `isupper`, `lower`, whitespace) are modelled on their ASCII behaviour,
  which is the behaviour exercised by every concrete input in this
  development.
* Python floats that are only ever built as ratios of small counts and
  compared against the literals `0.8`, `0.2` and `0.6` are modelled as exact
  rationals (`ℚ`).  For the bodies this code can see (≤ 15000 characters)
  the double-precision comparison agrees with the exact rational comparison:
  the closest a count ratio can get to 4/5 without equalling it is ~1e-5,
  while the rounding error of the double computation is ~1e-16.
* SQLite tables become Lean lists of rows; `SELECT ... ORDER BY` becomes a
  stable insertion sort (SQLite leaves the order of ties unspecified; the
  stable sort is the canonical choice); `LIMIT n` with `n < 0` means "no
  limit", per SQLite semantics of negative LIMIT values.  Text comparison
  is byte-lexicographic (SQLite BINARY collation), i.e. lexicographic on
  code points for the ASCII data used here.
* Wall-clock time (`datetime.now`), generated UUIDs and the salted SHA-256
  identity hash are passed in as explicit parameters: the code under test
  only moves these values around, so theorems quantify over them.
-/

namespace TAT

/-! ## Python text primitives -/

/-- Whitespace as recognised by Python `str.split()` / `str.strip()`
(ASCII fragment). -/
def pyIsSpace (c : Char) : Bool := c.isWhitespace

/-- Python `str.split()` with no separator: maximal runs of non-whitespace
characters, no empty words. -/
def pySplit (s : String) : List String :=
  ((s.data.splitOnP pyIsSpace).filter (fun w => ¬ w.isEmpty)).map String.mk

/-- Python `str.lower()` (ASCII). -/
def pyLower (s : String) : String := String.mk (s.data.map Char.toLower)

/-- Python `str.strip()`: drop leading and trailing whitespace. -/
def pyStrip (s : String) : String :=
  String.mk (((s.data.dropWhile pyIsSpace).reverse.dropWhile pyIsSpace).reverse)

/-- Byte-lexicographic string comparison on the underlying characters
(Python `<=` on `str`, SQLite BINARY collation). -/
def charListLe : List Char → List Char → Bool
  | [], _ => true
  | _ :: _, [] => false
  | a :: as, b :: bs => if a = b then charListLe as bs else decide (a < b)

/-- `a ≤ b` for strings, byte-lexicographically. -/
def strLe (a b : String) : Bool := charListLe a.data b.data

/-- Scan for the closing `>` of a candidate HTML tag; returns the characters
after it.  Models the `[^>]*>` tail of the regex `<[^>]+>` once the first
content character has been consumed. -/
def tagEnd : List Char → Option (List Char)
  | [] => none
  | c :: rest => if c = '>' then some rest else tagEnd rest

/-- Given the characters following a `<`, returns the remainder after the
matched tag if the regex `<[^>]+>` matches here (at least one non-`>`
character before the closing `>`), else `none`. -/
def tagRest : List Char → Option (List Char)
  | [] => none
  | c :: rest => if c = '>' then none else tagEnd rest

/-- `re.sub(r"<[^>]+>", "", ·)` on a character list: drop every
leftmost-first match of `<[^>]+>`.  The `fuel` argument is an upper bound on
the number of steps (each step strictly shortens the list, so an initial
fuel of `l.length` always suffices); it only makes the recursion structural
so that the kernel can evaluate it. -/
def stripHtmlFuel : Nat → List Char → List Char
  | 0, l => l
  | _ + 1, [] => []
  | fuel + 1, c :: rest =>
    if c = '<' then
      match tagRest rest with
      | some rest2 => stripHtmlFuel fuel rest2
      | none => '<' :: stripHtmlFuel fuel rest
    else c :: stripHtmlFuel fuel rest

/-- `re.sub(r"<[^>]+>", "", text)` — strip HTML-like tags. -/
def stripHtml (s : String) : String := String.mk (stripHtmlFuel s.data.length s.data)

/-! ## `social.py` — constants and sanitizer -/

/-- `COMMENT_MAX_LENGTH`. -/
def commentMaxLength : Nat := 5000

/-- `COMMENT_MIN_LENGTH`. -/
def commentMinLength : Nat := 10

/-- `MAX_COMMENTS_PER_IP_PER_MINUTE`. -/
def maxCommentsPerIpPerMinute : Nat := 10

/-- `_sanitize_text`: strip HTML tags, trim surrounding whitespace, truncate
to `COMMENT_MAX_LENGTH` code points. -/
def sanitizeText (text : String) : String := (pyStrip (stripHtml text)).take commentMaxLength

/-- `re.sub(r"[^a-zA-Z0-9_-]", "", article_slug)` — keep only the safe
identifier characters. -/
def sanitizeSlug (s : String) : String :=
  String.mk (s.data.filter (fun c => c.isAlphanum || c = '_' || c = '-'))

/-- Substring containment (Python `sig in ua_lower`). -/
def strContains (s pat : String) : Bool :=
  (List.range (s.data.length + 1)).any (fun i => pat.data.isPrefixOf (s.data.drop i))

/-- Browser User-Agent markers from `_detect_type`. -/
def browserSignals : List String :=
  ["mozilla", "chrome", "safari", "firefox", "edge", "opera"]

/-- `_detect_type`: classify a request as `agent` or `human` from the
User-Agent string. -/
def detectType (userAgent : String) : String :=
  if userAgent = "" then "agent"
  else if browserSignals.any (fun sig => strContains (pyLower userAgent) sig) then "human"
  else "agent"

/-- `_is_human`. -/
def isHuman (userAgent commenterType : String) : Bool :=
  if commenterType = "human" then true
  else if detectType userAgent = "human" then true
  else false

/-! ## `social.py` — ledger rows and state -/

/-- A row of the `comments` table. -/
structure CommentRow where
  id : String
  articleSlug : String
  parentId : Option String
  body : String
  agentName : String
  model : String
  operator : String
  commenterType : String
  ipHash : String
  endorsements : Nat
  createdAt : String
deriving DecidableEq

/-- A row of the `citations` table (the fields the claims use). -/
structure CitationRow where
  id : String
  articleSlug : String
  agentName : String
  createdAt : String
deriving DecidableEq

/-- A row of the `endorsements` table. -/
structure EndorsementRow where
  id : String
  commentId : String
  agentName : String
  ipHash : String
  createdAt : String
deriving DecidableEq

/-- A row of the ephemeral `rate_limits` table.  Timestamps are POSIX
seconds (`datetime.now(timezone.utc).timestamp()`), modelled exactly
as rationals. -/
structure RateLimitRecord where
  ipHash : String
  action : String
  timestamp : ℚ
deriving DecidableEq

/-- The SQLite database of the social layer. -/
structure SocialState where
  comments : List CommentRow
  citations : List CitationRow
  endorsements : List EndorsementRow
  rateLimits : List RateLimitRecord
deriving DecidableEq

/-! ## `social.py` — rate limiter -/

/-- `DELETE FROM rate_limits WHERE timestamp < ?` with `? = now - 60`. -/
def purgeOld (rl : List RateLimitRecord) (now : ℚ) : List RateLimitRecord :=
  rl.filter (fun r => decide (¬ r.timestamp < now - 60))

/-- `SELECT COUNT(*) FROM rate_limits WHERE ip_hash=? AND action=? AND
timestamp>?` with `? = now - 60`. -/
def countRecent (rl : List RateLimitRecord) (ipHash action : String) (now : ℚ) : Nat :=
  (rl.filter (fun r => decide (r.ipHash = ipHash ∧ r.action = action ∧ now - 60 < r.timestamp))).length

/-- `_check_rate_limit`: purge records older than 60 seconds, count the
remaining records for this `(token, action)` pair, and either refuse
(`false`, nothing recorded) when the count has reached the limit or record
this attempt and allow it (`true`). -/
def checkRateLimit (rl : List RateLimitRecord) (ipHash action : String)
    (maxPerMinute : Nat) (now : ℚ) : Bool × List RateLimitRecord :=
  let purged := purgeOld rl now
  if maxPerMinute ≤ countRecent purged ipHash action now then (false, purged)
  else (true, purged ++ [⟨ipHash, action, now⟩])

/-- Run a sequence of `_check_rate_limit` calls (one fixed token, action and
limit, at the given sequence of timestamps), keeping only the table. -/
def rlRun (rl : List RateLimitRecord) (ipHash action : String) (maxPerMinute : Nat)
    (ts : List ℚ) : List RateLimitRecord :=
  ts.foldl (fun s t => (checkRateLimit s ipHash action maxPerMinute t).2) rl

/-! ## `social.py` — posting a comment -/

/-- Outcome of `post_comment` (tag plus the payload the claims need). -/
inductive PostCommentResult where
  | rejectedHuman
  | error (errors : List String)
  | published (commentId : String)
deriving DecidableEq

/-- `post_comment`.  `hashFn` stands for `_hash_ip` (a salted digest the
code only compares for equality), `now` for the POSIX timestamp used by the
rate limiter, `nowIso`/`newId` for the stored creation time and the
generated comment id. -/
def postComment (st : SocialState) (hashFn : String → String)
    (articleSlug body agentName model operator parentId commenterType ip userAgent : String)
    (now : ℚ) (nowIso newId : String) : PostCommentResult × SocialState :=
  let body := sanitizeText body
  let agentName0 := (sanitizeText agentName).take 100
  let agentName := if agentName0 = "" then "Anonymous Agent" else agentName0
  let model := (sanitizeText model).take 100
  let operator := (sanitizeText operator).take 200
  let slug := sanitizeSlug articleSlug
  if isHuman userAgent commenterType then (.rejectedHuman, st)
  else
    let errors :=
      (if body.length < commentMinLength then ["Comment must be at least 10 characters"] else [])
      ++ (if slug = "" then ["article_slug is required"] else [])
      ++ (if parentId ≠ "" ∧ ¬ (st.comments.any (fun c => c.id = parentId)) then
            ["parent_id \x27" ++ parentId ++ "\x27 not found"] else [])
    if errors ≠ [] then (.error errors, st)
    else
      let ipHash := if ip = "" then "" else hashFn ip
      let gate := if ipHash = "" then (true, st.rateLimits)
                  else checkRateLimit st.rateLimits ipHash "comment" maxCommentsPerIpPerMinute now
      if gate.1 = false then
        (.error ["Rate limited. Max 10 comments per minute."], { st with rateLimits := gate.2 })
      else
        let commenterType := if commenterType = "" then detectType userAgent else commenterType
        let row : CommentRow :=
          { id := newId, articleSlug := slug,
            parentId := if parentId = "" then none else some parentId,
            body := body, agentName := agentName, model := model, operator := operator,
            commenterType := commenterType, ipHash := ipHash, endorsements := 0,
            createdAt := nowIso }
        (.published newId, { st with comments := st.comments ++ [row], rateLimits := gate.2 })

/-! ## `social.py` — comment listing and thread builder -/

/-- Newest-first ordering on `created_at` (SQL `ORDER BY created_at DESC`). -/
def createdGe (a b : CommentRow) : Prop := strLe b.createdAt a.createdAt = true

/-- Oldest-first ordering on `created_at` (SQL `ORDER BY created_at ASC`). -/
def createdLe (a b : CommentRow) : Prop := strLe a.createdAt b.createdAt = true

instance : DecidableRel createdGe := fun _a _b => decEq _ _

instance : DecidableRel createdLe := fun _a _b => decEq _ _

/-- The rows fetched by `get_comments`: filter by the sanitized slug, sort
by `created_at` in the requested direction, and apply
`LIMIT min(limit, 200)` (a negative limit means no limit in SQLite). -/
def getCommentsRows (comments : List CommentRow) (articleSlug : String)
    (limit : ℤ) (sort : String) : List CommentRow :=
  let slug := sanitizeSlug articleSlug
  let filtered := comments.filter (fun c => decide (c.articleSlug = slug))
  let sorted := if sort = "newest" then filtered.insertionSort createdGe
                else filtered.insertionSort createdLe
  let lim := min limit 200
  if lim < 0 then sorted else sorted.take lim.toNat

/-- Does some comment of the page carry this id?  (`parent_id in by_id`). -/
def inPage (page : List CommentRow) (cid : String) : Bool :=
  page.any (fun c => c.id = cid)

/-- `if c["parent_id"] and c["parent_id"] in by_id` — the comment goes into
its parent's reply list rather than the root list. -/
def isReplyIn (page : List CommentRow) (c : CommentRow) : Bool :=
  match c.parentId with
  | none => false
  | some p => ¬ p = "" && inPage page p

/-- The `replies` list the thread builder attaches to `parent`: the
comments of the fetched page whose (truthy, in-page) `parent_id` equals
`parent.id`, in page order.  (In the Python code each comment dict is
appended to `by_id[parent_id]["replies"]`; since the dicts in `by_id` are
shared with the root list, this is the reply list of every returned node,
at every nesting depth.) -/
def repliesOf (page : List CommentRow) (parent : CommentRow) : List CommentRow :=
  page.filter (fun c =>
    match c.parentId with
    | none => false
    | some p => ¬ p = "" && inPage page p && p = parent.id)

/-- The root list of the thread structure returned by `get_comments`:
comments with no truthy in-page parent reference, in page order. -/
def threadRoots (page : List CommentRow) : List CommentRow :=
  page.filter (fun c => ¬ isReplyIn page c)

/-! ## `social.py` — endorsements -/

/-- Outcome of `endorse_comment`. -/
inductive EndorseResult where
  | error (errors : List String)
  | endorsed (commentId : String) (totalEndorsements : Nat)
deriving DecidableEq

/-- `endorse_comment` after the identity hash has been computed
(`ip_hash = _hash_ip(ip) if ip else ""`): look up the comment, reject a
duplicate `(comment, token)` endorsement when the token is non-empty,
otherwise insert the endorsement row and bump the comment counter. -/
def endorseCommentH (st : SocialState) (commentId agentName ipHash : String)
    (newId nowIso : String) : EndorseResult × SocialState :=
  let agentName0 := (sanitizeText agentName).take 100
  let agentName := if agentName0 = "" then "Anonymous Agent" else agentName0
  match st.comments.find? (fun c => c.id = commentId) with
  | none => (.error ["Comment \x27" ++ commentId ++ "\x27 not found"], st)
  | some _ =>
    let existing := st.endorsements.any (fun e => e.commentId = commentId ∧ e.ipHash = ipHash)
    if existing ∧ ipHash ≠ "" then (.error ["Already endorsed this comment"], st)
    else
      let row : EndorsementRow :=
        { id := newId, commentId := commentId, agentName := agentName,
          ipHash := ipHash, createdAt := nowIso }
      let comments2 := st.comments.map (fun c =>
        if c.id = commentId then { c with endorsements := c.endorsements + 1 } else c)
      let newCount := match comments2.find? (fun c => c.id = commentId) with
        | some c => c.endorsements
        | none => 0
      (.endorsed commentId newCount,
       { st with comments := comments2, endorsements := st.endorsements ++ [row] })

/-- `endorse_comment` proper. -/
def endorseComment (st : SocialState) (hashFn : String → String)
    (commentId agentName ip : String) (newId nowIso : String) :
    EndorseResult × SocialState :=
  endorseCommentH st commentId agentName (if ip = "" then "" else hashFn ip) newId nowIso

/-! ## `social.py` — agent leaderboard -/

/-- One row of the leaderboard (the per-agent aggregates of
`get_agent_leaderboard`). -/
structure AgentStat where
  agentName : String
  commentCount : Nat
  totalEndorsements : Nat
  citationsGiven : Nat
  firstSeen : String
deriving DecidableEq

/-- `score = comment_count * 2 + total_endorsements * 3 + citations`. -/
def agentScore (a : AgentStat) : Nat :=
  a.commentCount * 2 + a.totalEndorsements * 3 + a.citationsGiven

/-- `MIN(created_at)` over a group. -/
def strMinList : List String → String
  | [] => ""
  | x :: xs => xs.foldl (fun acc s => if strLe s acc then s else acc) x

/-- The distinct named agents of the comments table
(`GROUP BY agent_name` under `WHERE agent_name != 'Anonymous Agent'`).
`List.dedup` keeps one canonical occurrence of each name; SQLite does not
specify an order for groups before `ORDER BY` is applied. -/
def groupNames (comments : List CommentRow) : List String :=
  ((comments.filter (fun c => decide (¬ c.agentName = "Anonymous Agent"))).map
    (fun c => c.agentName)).dedup

/-- The aggregates `get_agent_leaderboard` computes for one agent name:
comment count, endorsement sum and first-seen from the grouped `comments`
query, plus the citation count of the per-agent follow-up query. -/
def statFor (comments : List CommentRow) (citations : List CitationRow)
    (name : String) : AgentStat :=
  let mine := comments.filter (fun c => decide (c.agentName = name))
  { agentName := name,
    commentCount := mine.length,
    totalEndorsements := (mine.map (fun c => c.endorsements)).sum,
    citationsGiven := (citations.filter (fun c => decide (c.agentName = name))).length,
    firstSeen := strMinList (mine.map (fun c => c.createdAt)) }

/-- `ORDER BY COUNT(*) DESC`. -/
def countGe (a b : AgentStat) : Prop := b.commentCount ≤ a.commentCount

/-- Python `agents.sort(key=lambda a: a["score"], reverse=True)`. -/
def scoreGe (a b : AgentStat) : Prop := agentScore b ≤ agentScore a

instance : DecidableRel countGe := fun _a _b => Nat.decLe _ _

instance : DecidableRel scoreGe := fun _a _b => Nat.decLe _ _

instance : IsTotal AgentStat countGe := ⟨fun a b => le_total b.commentCount a.commentCount⟩

instance : IsTrans AgentStat countGe := ⟨fun _ _ _ hab hbc => le_trans hbc hab⟩

instance : IsTotal AgentStat scoreGe := ⟨fun a b => le_total (agentScore b) (agentScore a)⟩

instance : IsTrans AgentStat scoreGe := ⟨fun _ _ _ hab hbc => le_trans hbc hab⟩

/-- The agents selected by the SQL query of `get_agent_leaderboard`:
named-agent groups ordered by comment count descending, truncated by
`LIMIT min(limit, 100)` (negative limit: no truncation, per SQLite). -/
def leaderboardSelected (comments : List CommentRow) (citations : List CitationRow)
    (limit : ℤ) : List AgentStat :=
  let stats := (groupNames comments).map (statFor comments citations)
  let byCount := stats.insertionSort countGe
  let lim := min limit 100
  if lim < 0 then byCount else byCount.take lim.toNat

/-- `get_agent_leaderboard`: fetch at most `min(limit, 100)` agents ordered
by comment count, then re-sort that selection by score descending. -/
def getAgentLeaderboard (comments : List CommentRow) (citations : List CitationRow)
    (limit : ℤ) : List AgentStat :=
  (leaderboardSelected comments citations limit).insertionSort scoreGe

/-! ## `submissions.py` — anti-spam heuristics -/

/-- `_check_all_caps`: reject (`true`) iff, among alphabetic characters
only, the uppercase ratio is strictly greater than 0.8; a body with no
letters is never rejected.  The rejection-message string is irrelevant to
the claims, so the result is the reject/pass boolean. -/
def checkAllCaps (bodyText : String) : Bool :=
  let letters := bodyText.data.filter Char.isAlpha
  if letters = [] then false
  else decide ((4 : ℚ)/5 < (letters.countP (fun c => Char.isUpper c) : ℚ) / (letters.length : ℚ))

/-- The sliding-window list of all contiguous 5-word lowercase phrases of a
body, as built by `_check_repeated_text`
(`" ".join(words[i:i+5]).lower()` for `i in range(len(words) - 4)`). -/
def repeatedPhrases (bodyText : String) : List String :=
  let words := pySplit bodyText
  (List.range (words.length - 4)).map
    (fun i => pyLower (String.intercalate " " ((words.drop i).take 5)))

/-- `_check_repeated_text`: skip bodies of fewer than 10 words; otherwise
reject (`true`) iff strictly fewer than 20% of the sliding windows are
distinct. -/
def checkRepeatedText (bodyText : String) : Bool :=
  let words := pySplit bodyText
  if words.length < 10 then false
  else
    let phrases := repeatedPhrases bodyText
    if phrases = [] then false
    else decide (((phrases.dedup.length : ℚ)) / ((phrases.length : ℚ)) < (1 : ℚ)/5)

/-! ## `submissions.py` — similarity detector -/

/-- The lowercase word set of a text (`set(text.lower().split())`). -/
def wordSet (s : String) : Finset String := (pySplit (pyLower s)).toFinset

/-- `_jaccard_similarity`: `|A ∩ B| / |A ∪ B|` on the two word sets, with
0.0 when either set is empty. -/
def jaccardSimilarity (textA textB : String) : ℚ :=
  let wa := wordSet textA
  let wb := wordSet textB
  if wa = ∅ ∨ wb = ∅ then 0
  else ((wa ∩ wb).card : ℚ) / ((wa ∪ wb).card : ℚ)

/-- A stored submission (the fields the claims touch; files under
`SUBMISSIONS_DIR`, one per submission id). -/
structure Submission where
  submissionId : String
  agentName : String
  headline : String
  body : String
  status : String
  earnClaimId : String
  approvedAt : Option String := none
  rejectedAt : Option String := none
  rejectedReason : Option String := none
deriving DecidableEq

/-- `_check_similarity`: reject (`true`) iff some stored submission body —
markup-stripped, with no regard to the submission's status — has Jaccard
similarity strictly greater than 0.8 with the candidate body.  (The code
returns the first offending message; only the reject/pass outcome matters
to the claims.) -/
def checkSimilarity (bodyText : String) (existing : List Submission) : Bool :=
  existing.any (fun sub => decide ((4 : ℚ)/5 < jaccardSimilarity bodyText (stripHtml sub.body)))

/-! ## `submissions.py` — per-name daily rate limit -/

/-- The rate-limit hit reported by `_check_submission_rate_limit`. -/
structure SubmissionRateLimitHit where
  error : String
  nextEligible : ℚ
deriving DecidableEq

/-- Lookup in the JSON rate-limits dict (`limits.get(key)`). -/
def lookupKey (limits : List (String × String)) (k : String) : Option String :=
  (limits.find? (fun p => p.1 = k)).map (fun p => p.2)

/-- `_check_submission_rate_limit`: key is the lowercased stripped name; a
missing value, a Python-falsy value (empty string) or a value
`datetime.fromisoformat` cannot parse all mean "no limit"; otherwise the
name is limited until 24 hours (86400 s) after the recorded timestamp.
`parseIso` stands for `datetime.fromisoformat` (`none` models the caught
`ValueError`/`TypeError`), `now` for `datetime.now(timezone.utc)`. -/
def checkSubmissionRateLimit (limits : List (String × String)) (agentName : String)
    (parseIso : String → Option ℚ) (now : ℚ) : Option SubmissionRateLimitHit :=
  let key := pyLower (pyStrip agentName)
  match lookupKey limits key with
  | none => none
  | some lastTs =>
    if lastTs = "" then none
    else
      match parseIso lastTs with
      | none => none
      | some lastDt =>
        if now < lastDt + 86400 then
          some { error := "Rate limit: " ++ agentName ++ " can submit 1 article per day.",
                 nextEligible := lastDt + 86400 }
        else none

/-! ## `submissions.py` — moderation state machine -/

/-- Outcome of the admin transitions `approve_submission` /
`reject_submission`.  `notFound` is the `{"status": "not_found"}` payload;
`conflict` is the `{"status": "error"}` payload returned when the
submission is not in `pending_review` (a Conflict-class outcome, distinct
from `notFound` by construction). -/
inductive AdminResult where
  | notFound (submissionId : String)
  | conflict (error : String)
  | approved (submissionId earnClaimId : String)
  | rejected (submissionId reason : String)
deriving DecidableEq

/-- `_load_submission`: the stored submission whose id field matches, if
any (one JSON file per id). -/
def findSubmission (store : List Submission) (submissionId : String) : Option Submission :=
  store.find? (fun s => s.submissionId = submissionId)

/-- `_save_submission`: overwrite the stored submission carrying this id. -/
def saveSubmission (store : List Submission) (sub : Submission) : List Submission :=
  store.map (fun s => if s.submissionId = sub.submissionId then sub else s)

/-- `approve_submission`: not-found for an unknown id; a Conflict-class
error when the submission is not `pending_review`; otherwise mark it
`approved`, stamp the decision time and report the pre-allocated earn-claim
id.  (The verified claim it also appends to the external earn registry is
outside the moderation store and not modelled.) -/
def approveSubmission (store : List Submission) (submissionId : String)
    (nowIso : String) : AdminResult × List Submission :=
  match findSubmission store submissionId with
  | none => (.notFound submissionId, store)
  | some sub =>
    if ¬ sub.status = "pending_review" then
      (.conflict ("Submission is already \x27" ++ sub.status ++ "\x27, cannot approve."), store)
    else
      let sub2 := { sub with status := "approved", approvedAt := some nowIso }
      (.approved submissionId sub.earnClaimId, saveSubmission store sub2)

/-- `reject_submission`: not-found for an unknown id; a Conflict-class
error when the submission is not `pending_review`; otherwise mark it
`rejected` with the given reason (or the default one). -/
def rejectSubmission (store : List Submission) (submissionId reason : String)
    (nowIso : String) : AdminResult × List Submission :=
  match findSubmission store submissionId with
  | none => (.notFound submissionId, store)
  | some sub =>
    if ¬ sub.status = "pending_review" then
      (.conflict ("Submission is already \x27" ++ sub.status ++ "\x27, cannot reject."), store)
    else
      let reason2 := if reason = "" then "Does not meet editorial standards" else reason
      let sub2 :=
        { sub with status := "rejected", rejectedAt := some nowIso, rejectedReason := some reason2 }
      (.rejected submissionId reason2, saveSubmission store sub2)

/-- One admin action on the submission store. -/
inductive AdminOp where
  | approve (submissionId : String) (nowIso : String)
  | reject (submissionId reason : String) (nowIso : String)
deriving DecidableEq

/-- Apply one admin action, keeping only the store. -/
def applyAdminOp (store : List Submission) : AdminOp → List Submission
  | .approve sid nowIso => (approveSubmission store sid nowIso).2
  | .reject sid reason nowIso => (rejectSubmission store sid reason nowIso).2


/-! ## Concrete fixtures used by witnesses and counterexamples -/

/-- A root comment on article `s`. -/
def cA : CommentRow :=
  { id := "A", articleSlug := "s", parentId := none, body := "root comment", agentName := "x",
    model := "", operator := "", commenterType := "agent", ipHash := "", endorsements := 0,
    createdAt := "t1" }

/-- A direct reply to `cA`. -/
def cB : CommentRow := { cA with id := "B", parentId := some "A", createdAt := "t2" }

/-- A reply to the reply `cB`. -/
def cC : CommentRow := { cA with id := "C", parentId := some "B", createdAt := "t3" }

/-- 201 comments on the same article, used to exceed the 200-row cap. -/
def comments201 : List CommentRow :=
  (List.range 201).map (fun i => { cA with id := Nat.repr i, createdAt := "t" })

/-- Comments by 101 distinct named agents (one comment each). -/
def commentsLB : List CommentRow :=
  (List.range 101).map (fun i =>
    { cA with id := Nat.repr i, agentName := "a" ++ Nat.repr i, createdAt := "t" })

/-- A body whose markup-stripped form is 600 spaces: it passes field
validation (600 ≥ 500 characters after tag stripping) and every anti-spam
check (no letters, fewer than 10 words, no non-blank lines), so it is
storable; yet its word set is empty. -/
def wsBody : String := String.mk (List.replicate 600 ' ')

/-- A stored submission whose body is `wsBody`. -/
def subWs : Submission :=
  { submissionId := "sub_ws", agentName := "Agent W", headline := "headline x",
    body := wsBody, status := "pending_review", earnClaimId := "earn_ws" }

/-- A stored submission whose body is a plain two-word text. -/
def subDup : Submission :=
  { submissionId := "sub_d", agentName := "Agent D", headline := "headline d",
    body := "hello world", status := "approved", earnClaimId := "earn_d" }

/-- A stored submission already in the terminal `rejected` state. -/
def subRej : Submission :=
  { submissionId := "sub_r", agentName := "Agent R", headline := "headline r",
    body := "some body", status := "rejected", earnClaimId := "earn_r" }

end TAT

/-! # Theorems -/

namespace TAT

/-! ## C6 — capitalization spam check -/

/-- C6: `_check_all_caps` rejects exactly when, among alphabetic characters
only, the uppercase ratio is strictly greater than 0.8 (equivalently
`4·|letters| < 5·|uppercase|`); at a ratio of exactly 0.8 it does not
reject; and a body with no alphabetic characters is never rejected. -/
theorem c6_all_caps (s : String) :
    (checkAllCaps s = true ↔
      (s.data.filter Char.isAlpha ≠ [] ∧
        4 * (s.data.filter Char.isAlpha).length <
          5 * (s.data.filter Char.isAlpha).countP (fun c => Char.isUpper c)))
    ∧ (5 * (s.data.filter Char.isAlpha).countP (fun c => Char.isUpper c) =
        4 * (s.data.filter Char.isAlpha).length → checkAllCaps s = false)
    ∧ (s.data.filter Char.isAlpha = [] → checkAllCaps s = false) := by
  unfold checkAllCaps
  by_cases h : s.data.filter Char.isAlpha = []
  · simp [h]
  · rw [if_neg h]
    have hlen : 0 < (s.data.filter Char.isAlpha).length := List.length_pos.mpr h
    have key : ((4 : ℚ)/5 <
        ((s.data.filter Char.isAlpha).countP (fun c => Char.isUpper c) : ℚ) /
          ((s.data.filter Char.isAlpha).length : ℚ)) ↔
        4 * (s.data.filter Char.isAlpha).length <
          5 * (s.data.filter Char.isAlpha).countP (fun c => Char.isUpper c) := by
      rw [div_lt_div_iff (by norm_num) (by exact_mod_cast hlen)]
      rw [mul_comm ((s.data.filter Char.isAlpha).countP (fun c => Char.isUpper c) : ℚ) 5]
      exact_mod_cast Iff.rfl
    refine ⟨?_, ?_, ?_⟩
    · rw [decide_eq_true_eq, key]
      simp [h]
    · intro hb
      rw [decide_eq_false_iff_not, key]
      omega
    · intro hc
      exact absurd hc h

/-- Witness for C6: a 6-letter body with 5 uppercase letters (ratio 5/6) is
rejected; a 5-letter body with 4 uppercase letters (ratio exactly 0.8) is
not. -/
theorem c6_all_caps_witness :
    checkAllCaps "AAAAAb" = true ∧ checkAllCaps "AAAAb" = false :=
  ⟨(c6_all_caps "AAAAAb").1.mpr (by decide), (c6_all_caps "AAAAb").2.1 (by decide)⟩

/-! ## C7 — repetition spam check -/

/-- C7: `_check_repeated_text` never rejects a body of fewer than 10
whitespace-separated words; for 10 or more words it rejects exactly when the
fraction of distinct 5-word lowercase sliding windows is strictly below 0.2
(equivalently `5·|distinct| < |windows|`). -/
theorem c7_repeated_text (s : String) :
    ((pySplit s).length < 10 → checkRepeatedText s = false)
    ∧ (10 ≤ (pySplit s).length →
        (checkRepeatedText s = true ↔
          5 * (repeatedPhrases s).dedup.length < (repeatedPhrases s).length)) := by
  constructor
  · intro h
    unfold checkRepeatedText
    simp [h]
  · intro h
    have hlt : ¬ (pySplit s).length < 10 := by omega
    have hplen : (repeatedPhrases s).length = (pySplit s).length - 4 := by
      unfold repeatedPhrases
      simp
    have hpos : 0 < (repeatedPhrases s).length := by omega
    have hne : ¬ repeatedPhrases s = [] := by
      intro hc
      rw [hc] at hpos
      simp at hpos
    have key : (((repeatedPhrases s).dedup.length : ℚ) / ((repeatedPhrases s).length : ℚ)
        < (1 : ℚ)/5) ↔
        5 * (repeatedPhrases s).dedup.length < (repeatedPhrases s).length := by
      rw [div_lt_div_iff (by exact_mod_cast hpos) (by norm_num)]
      rw [one_mul, mul_comm ((repeatedPhrases s).dedup.length : ℚ) 5]
      exact_mod_cast Iff.rfl
    unfold checkRepeatedText
    rw [if_neg hlt, if_neg hne, decide_eq_true_eq, key]

/-- Witness for C7: a 9-word body of pure repetition passes; a 10-word body
repeating one word (6 windows, all equal, 1 distinct) is rejected. -/
theorem c7_repeated_text_witness :
    checkRepeatedText "a a a a a a a a a" = false
    ∧ checkRepeatedText "a a a a a a a a a a" = true :=
  ⟨(c7_repeated_text "a a a a a a a a a").1 (by decide),
   ((c7_repeated_text "a a a a a a a a a a").2 (by decide)).mpr (by decide)⟩

/-! ## C10 — malformed per-name submission rate-limit records -/

/-- C10: `_check_submission_rate_limit` reports no limit when the stored
per-name record is missing, and also when the stored value cannot be parsed
as an ISO timestamp (the `ValueError`/`TypeError` is swallowed), so the
submission proceeds as if the name had never submitted. -/
theorem c10_malformed_rate_limit (limits : List (String × String)) (agentName : String)
    (parseIso : String → Option ℚ) (now : ℚ) :
    (lookupKey limits (pyLower (pyStrip agentName)) = none →
      checkSubmissionRateLimit limits agentName parseIso now = none)
    ∧ (∀ s, lookupKey limits (pyLower (pyStrip agentName)) = some s → parseIso s = none →
        checkSubmissionRateLimit limits agentName parseIso now = none) := by
  constructor
  · intro h
    simp [checkSubmissionRateLimit, h]
  · intro s hs hp
    by_cases he : s = ""
    · simp [checkSubmissionRateLimit, hs, he]
    · simp [checkSubmissionRateLimit, hs, he, hp]

/-- Witness for C10: an unknown name passes, and a name whose stored record
the ISO parser refuses (here it refuses everything) also passes — note the
key is the lowercased name. -/
theorem c10_malformed_rate_limit_witness :
    checkSubmissionRateLimit [] "Fresh Agent" (fun _ => none) 0 = none
    ∧ checkSubmissionRateLimit [("agent k", "garbage")] "Agent K" (fun _ => none) 0 = none :=
  ⟨(c10_malformed_rate_limit [] "Fresh Agent" (fun _ => none) 0).1 (by decide),
   (c10_malformed_rate_limit [("agent k", "garbage")] "Agent K" (fun _ => none) 0).2
     "garbage" (by decide) rfl⟩

/-! ## C2 — submission moderation state machine -/

/-- Saving a submission whose id differs from `id` does not change what a
lookup of `id` finds. -/
theorem findSubmission_save_ne (store : List Submission) (sub : Submission) (id : String)
    (h : ¬ sub.submissionId = id) :
    findSubmission (saveSubmission store sub) id = findSubmission store id := by
  unfold findSubmission saveSubmission
  rw [List.find?_map]
  have hpf : ((fun s => decide (s.submissionId = id)) ∘
      (fun s => if s.submissionId = sub.submissionId then sub else s)) =
      (fun s : Submission => decide (s.submissionId = id)) := by
    funext e
    by_cases he : e.submissionId = sub.submissionId
    · simp [he]
    · simp [he]
  rw [hpf]
  cases hfe : store.find? (fun s => decide (s.submissionId = id)) with
  | none => rfl
  | some e =>
    have hpe : e.submissionId = id := by simpa using List.find?_some hfe
    have hne : ¬ e.submissionId = sub.submissionId := by
      intro hc
      exact h (by rw [← hc]; exact hpe)
    simp [hne]

/-- An admin action never touches a stored submission that is already in a
terminal (non-`pending_review`) state: approving or rejecting it directly is
refused before saving, and actions on other ids only rewrite entries
carrying those other ids. -/
theorem applyAdminOp_preserves (op : AdminOp) (store : List Submission) (id : String)
    (sub : Submission) (hf : findSubmission store id = some sub)
    (hs : ¬ sub.status = "pending_review") :
    findSubmission (applyAdminOp store op) id = some sub := by
  cases op with
  | approve sid nowIso =>
    unfold applyAdminOp approveSubmission
    cases hfs : findSubmission store sid with
    | none => simp only [hfs]; exact hf
    | some sub2 =>
      simp only [hfs]
      by_cases h2 : sub2.status = "pending_review"
      · rw [if_neg (not_not_intro h2)]
        have hp : sub2.submissionId = sid := by simpa using List.find?_some hfs
        have hne : ¬ sub2.submissionId = id := by
          intro he
          rw [hp] at he
          rw [← he, hfs] at hf
          cases hf
          exact hs h2
        show findSubmission (saveSubmission store _) id = some sub
        rw [findSubmission_save_ne store _ id (by simpa using hne)]
        exact hf
      · rw [if_pos h2]
        exact hf
  | reject sid reason nowIso =>
    unfold applyAdminOp rejectSubmission
    cases hfs : findSubmission store sid with
    | none => simp only [hfs]; exact hf
    | some sub2 =>
      simp only [hfs]
      by_cases h2 : sub2.status = "pending_review"
      · rw [if_neg (not_not_intro h2)]
        have hp : sub2.submissionId = sid := by simpa using List.find?_some hfs
        have hne : ¬ sub2.submissionId = id := by
          intro he
          rw [hp] at he
          rw [← he, hfs] at hf
          cases hf
          exact hs h2
        show findSubmission (saveSubmission store _) id = some sub
        rw [findSubmission_save_ne store _ id (by simpa using hne)]
        exact hf
      · rw [if_pos h2]
        exact hf

/-- C2: `approve_submission` reports `not_found` for an unknown id; on a
submission in any terminal (non-`pending_review`) state — in particular
`rejected` — it reports a Conflict-class error (a constructor distinct from
`notFound`); and no sequence of approve/reject actions ever changes a
submission that has reached a terminal state, so a submission that is
`approved` can never also become `rejected` and vice versa. -/
theorem c2_moderation_state_machine :
    (∀ (store : List Submission) (id nowIso : String),
      findSubmission store id = none →
      (approveSubmission store id nowIso).1 = AdminResult.notFound id)
    ∧ (∀ (store : List Submission) (id nowIso : String) (sub : Submission),
        findSubmission store id = some sub → ¬ sub.status = "pending_review" →
        (approveSubmission store id nowIso).1 =
          AdminResult.conflict ("Submission is already \x27" ++ sub.status ++ "\x27, cannot approve."))
    ∧ (∀ (ops : List AdminOp) (store : List Submission) (id : String) (sub : Submission),
        findSubmission store id = some sub → ¬ sub.status = "pending_review" →
        findSubmission (ops.foldl applyAdminOp store) id = some sub) := by
  refine ⟨?_, ?_, ?_⟩
  · intro store id nowIso h
    simp [approveSubmission, h]
  · intro store id nowIso sub h hs
    simp [approveSubmission, h, hs]
  · intro ops
    induction ops with
    | nil => exact fun store id sub hf _ => hf
    | cons op rest ih =>
      intro store id sub hf hs
      exact ih _ _ _ (applyAdminOp_preserves op store id sub hf hs) hs

/-- Witness for C2: approving an id with no stored submission is
`notFound`; approving the stored `rejected` submission is a conflict; and an
approve followed by a reject leave the rejected submission untouched. -/
theorem c2_moderation_witness :
    (approveSubmission [] "sub_x" "t").1 = AdminResult.notFound "sub_x"
    ∧ (approveSubmission [subRej] "sub_r" "t").1 =
        AdminResult.conflict "Submission is already \x27rejected\x27, cannot approve."
    ∧ findSubmission
        (List.foldl applyAdminOp [subRej] [AdminOp.approve "sub_r" "t2", AdminOp.reject "sub_r" "w" "t3"])
        "sub_r" = some subRej :=
  ⟨c2_moderation_state_machine.1 [] "sub_x" "t" rfl,
   c2_moderation_state_machine.2.1 [subRej] "sub_r" "t" subRej (by decide) (by decide),
   c2_moderation_state_machine.2.2 [AdminOp.approve "sub_r" "t2", AdminOp.reject "sub_r" "w" "t3"]
     [subRej] "sub_r" subRej (by decide) (by decide)⟩

/-! ## C1 — thread builder -/

/-- Counterexample to C1 as stated: with A a root, B a child of A and C a
child of B all in one page, C DOES appear in B's reply list — the builder
appends every in-page child to its parent's (shared) reply dict, so the
returned structure nests beyond one level. -/
theorem c1_thread_builder_cx : cC ∈ repliesOf [cA, cB, cC] cB := by decide

/-- C1 amended: for comments A (root), B (parent = A), C (parent = B)
fetched in one page (with distinct, non-empty ids), the thread builder
places B as the sole direct reply of A, places C as the sole direct reply
of B (one level deeper — nesting is not cut off at one level), and returns
exactly A as root. -/
theorem c1_thread_builder_amended (a b c : CommentRow)
    (hpa : a.parentId = none) (hpb : b.parentId = some a.id) (hpc : c.parentId = some b.id)
    (ha : ¬ a.id = "") (hb : ¬ b.id = "") (hba : ¬ b.id = a.id) :
    repliesOf [a, b, c] a = [b] ∧ repliesOf [a, b, c] b = [c]
    ∧ threadRoots [a, b, c] = [a] := by
  have hinA : inPage [a, b, c] a.id = true := by simp [inPage]
  have hinB : inPage [a, b, c] b.id = true := by simp [inPage]
  have hab : ¬ a.id = b.id := fun hc => hba hc.symm
  refine ⟨?_, ?_, ?_⟩
  · simp [repliesOf, hpa, hpb, hpc, ha, hb, hba, hab, hinA, hinB]
  · simp [repliesOf, hpa, hpb, hpc, ha, hb, hba, hab, hinA, hinB]
  · simp [threadRoots, isReplyIn, hpa, hpb, hpc, ha, hb, hinA, hinB]

/-- Witness for C1 (amended) at the concrete page `[cA, cB, cC]`. -/
theorem c1_thread_builder_witness :
    repliesOf [cA, cB, cC] cA = [cB] ∧ repliesOf [cA, cB, cC] cB = [cC]
    ∧ threadRoots [cA, cB, cC] = [cA] :=
  c1_thread_builder_amended cA cB cC rfl rfl rfl (by decide) (by decide) (by decide)

/-! ## C8 — hard cap on listed comment rows -/

/-- C8 amended: for every nonnegative requested limit, `get_comments`
returns at most 200 comment rows (`LIMIT min(limit, 200)`).  (A negative
requested limit defeats the cap: SQLite treats a negative LIMIT as
unbounded — see the counterexample.) -/
theorem c8_comment_cap_amended (comments : List CommentRow) (slug : String) (limit : ℤ)
    (sort : String) (h : 0 ≤ limit) :
    (getCommentsRows comments slug limit sort).length ≤ 200 := by
  unfold getCommentsRows
  have h1 : (0 : ℤ) ≤ min limit 200 := le_min h (by norm_num)
  rw [if_neg (not_lt.mpr h1)]
  refine le_trans ?_ (Int.toNat_le.mpr (min_le_right limit 200))
  rw [List.length_take]
  exact Nat.min_le_left _ _

/-- Witness for C8 (amended): an oversized but nonnegative requested limit
still yields at most 200 rows. -/
theorem c8_comment_cap_witness :
    (getCommentsRows comments201 "s" 100000 "newest").length ≤ 200 :=
  c8_comment_cap_amended comments201 "s" 100000 "newest" (by norm_num)

/-- Counterexample to C8 as stated: the cap does not hold for every
requested limit value.  `min(-1, 200) = -1`, and SQLite treats `LIMIT -1`
as "no limit", so requesting limit `-1` on an article with 201 comments
returns 201 rows. -/
theorem c8_comment_cap_cx :
    ¬ (∀ limit : ℤ, (getCommentsRows comments201 "s" limit "newest").length ≤ 200) := by
  intro h
  have h1 := h (-1)
  have h2 : (getCommentsRows comments201 "s" (-1) "newest").length = 201 := by
    have hfil : comments201.filter (fun c => decide (c.articleSlug = sanitizeSlug "s"))
        = comments201 := by
      apply List.filter_eq_self.mpr
      intro x hx
      unfold comments201 at hx
      simp only [List.mem_map, List.mem_range] at hx
      obtain ⟨i, hi, rfl⟩ := hx
      rfl
    simp only [getCommentsRows]
    rw [hfil]
    rw [if_pos (show min (-1 : ℤ) 200 < 0 by norm_num)]
    rw [if_pos trivial]
    rw [(List.perm_insertionSort createdGe comments201).length_eq]
    unfold comments201
    simp
  rw [h2] at h1
  norm_num at h1

/-! ## C5 — similarity detector -/

/-- The Jaccard similarity of a text with itself is 1 when its word set is
non-empty. -/
theorem jaccardSimilarity_self (b : String) (h : wordSet b ≠ ∅) :
    jaccardSimilarity b b = 1 := by
  unfold jaccardSimilarity
  rw [if_neg (by simp [h])]
  rw [Finset.inter_self, Finset.union_self]
  have hc : ((wordSet b).card : ℚ) ≠ 0 := by
    exact_mod_cast fun hc => h (Finset.card_eq_zero.mp hc)
  exact div_self hc

/-- The Jaccard similarity of two texts with disjoint word sets is 0. -/
theorem jaccardSimilarity_inter_empty (a b : String) (h : wordSet a ∩ wordSet b = ∅) :
    jaccardSimilarity a b = 0 := by
  unfold jaccardSimilarity
  by_cases he : wordSet a = ∅ ∨ wordSet b = ∅
  · rw [if_pos he]
  · rw [if_neg he, h]
    simp

/-- C5 amended: `_check_similarity` rejects iff some stored submission body
(markup-stripped, regardless of status) has word-set Jaccard similarity
strictly greater than 0.8 with the candidate; a candidate identical to a
stored body whose word set is non-empty is always rejected (Jaccard 1); a
candidate sharing no words with any stored body is never rejected.  (For a
stored body with an EMPTY word set, identity does not imply rejection —
`_jaccard_similarity` returns 0.0 for empty word sets; see the
counterexample.) -/
theorem c5_similarity_amended (body : String) (existing : List Submission) :
    (checkSimilarity body existing = true ↔
      ∃ sub ∈ existing, (4 : ℚ)/5 < jaccardSimilarity body (stripHtml sub.body))
    ∧ (∀ sub ∈ existing, stripHtml sub.body = body → wordSet body ≠ ∅ →
        checkSimilarity body existing = true)
    ∧ ((∀ sub ∈ existing, wordSet body ∩ wordSet (stripHtml sub.body) = ∅) →
        checkSimilarity body existing = false) := by
  have hiff : checkSimilarity body existing = true ↔
      ∃ sub ∈ existing, (4 : ℚ)/5 < jaccardSimilarity body (stripHtml sub.body) := by
    unfold checkSimilarity
    rw [List.any_eq_true]
    constructor
    · rintro ⟨sub, hm, hd⟩
      exact ⟨sub, hm, of_decide_eq_true hd⟩
    · rintro ⟨sub, hm, hd⟩
      exact ⟨sub, hm, decide_eq_true hd⟩
  refine ⟨hiff, ?_, ?_⟩
  · intro sub hm hb hne
    apply hiff.mpr
    refine ⟨sub, hm, ?_⟩
    rw [hb, jaccardSimilarity_self body hne]
    norm_num
  · intro hall
    rw [Bool.eq_false_iff]
    intro hc
    obtain ⟨sub, hm, hgt⟩ := hiff.mp hc
    rw [jaccardSimilarity_inter_empty _ _ (hall sub hm)] at hgt
    norm_num at hgt

/-- Stripping tags is the identity on text without `<`. -/
theorem stripHtmlFuel_no_tag (fuel : ℕ) :
    ∀ (l : List Char), (∀ c ∈ l, ¬ c = '<') → stripHtmlFuel fuel l = l := by
  induction fuel with
  | zero => intro l h; rfl
  | succ f ih =>
    intro l h
    cases l with
    | nil => rfl
    | cons c rest =>
      simp only [stripHtmlFuel]
      rw [if_neg (h c (by simp))]
      rw [ih rest (fun d hd => h d (by simp [hd]))]

/-- Splitting a list of separators yields no words. -/
theorem splitOnP_all_space :
    ∀ (l : List Char), (∀ c ∈ l, pyIsSpace c = true) →
      (l.splitOnP pyIsSpace).filter (fun w => ¬ w.isEmpty) = [] := by
  intro l
  induction l with
  | nil => intro h; rfl
  | cons c rest ih =>
    intro h
    rw [List.splitOnP_cons]
    rw [if_pos (h c (by simp))]
    rw [List.filter_cons]
    rw [if_neg (by decide)]
    exact ih (fun d hd => h d (by simp [hd]))

/-- Counterexample to C5 as stated: a candidate identical to a stored
submission body is NOT always rejected.  `wsBody` (600 spaces) survives the
whole submission pipeline — field validation sees 600 ≥ 500 characters
after tag stripping of a `<p>…</p>`-wrapped body, and every spam check
skips it — yet its word set is empty, so `_jaccard_similarity` reports 0.0
and the identical resubmission sails through the similarity detector. -/
theorem c5_similarity_cx :
    ¬ (∀ (body : String) (existing : List Submission),
        (∃ sub ∈ existing, stripHtml sub.body = body) →
        checkSimilarity body existing = true) := by
  intro hclaim
  have hnolt : ∀ c ∈ wsBody.data, ¬ c = '<' := by
    intro c hc
    rw [List.eq_of_mem_replicate (show c ∈ List.replicate 600 ' ' from hc)]
    decide
  have hstrip : stripHtml wsBody = wsBody := by
    show String.mk (stripHtmlFuel wsBody.data.length wsBody.data) = wsBody
    rw [stripHtmlFuel_no_tag _ _ hnolt]
  have hsplit : pySplit (pyLower wsBody) = [] := by
    unfold pySplit
    rw [splitOnP_all_space _ ?_]
    · rfl
    · intro c hc
      obtain ⟨x, hx, rfl⟩ :=
        List.mem_map.mp (show c ∈ (List.replicate 600 ' ').map Char.toLower from hc)
      rw [List.eq_of_mem_replicate hx]
      decide
  have hw : wordSet wsBody = ∅ := by
    unfold wordSet
    rw [hsplit]
    simp
  have h1 := hclaim wsBody [subWs]
    ⟨subWs, by simp, by rw [show subWs.body = wsBody from rfl]; exact hstrip⟩
  have hj : jaccardSimilarity wsBody (stripHtml subWs.body) = 0 :=
    jaccardSimilarity_inter_empty _ _ (by rw [hw]; simp)
  have h2 : checkSimilarity wsBody [subWs] = false := by
    unfold checkSimilarity
    simp only [List.any_cons, List.any_nil, Bool.or_false]
    rw [hj]
    exact decide_eq_false (by norm_num)
  rw [h1] at h2
  exact absurd h2 (by decide)

/-- Witness for C5 (amended): a candidate equal to the stored two-word body
is rejected; a candidate sharing no words with it is not. -/
theorem c5_similarity_witness :
    checkSimilarity "hello world" [subDup] = true
    ∧ checkSimilarity "fresh words" [subDup] = false :=
  ⟨(c5_similarity_amended "hello world" [subDup]).2.1 subDup (by simp) (by decide) (by decide),
   (c5_similarity_amended "fresh words" [subDup]).2.2 (by decide)⟩

/-! ## C4 — endorsement idempotency and counter consistency -/

/-- Bumping the endorsement counter of the comment with id `cid` (the SQL
`UPDATE ... WHERE id=?`) turns the first lookup result for `cid` into the
same row with its counter incremented. -/
theorem find?_comments_incr (l : List CommentRow) (cid : String) (c : CommentRow)
    (h : l.find? (fun x => x.id = cid) = some c) :
    (l.map (fun x => if x.id = cid then { x with endorsements := x.endorsements + 1 } else x)).find?
      (fun x => x.id = cid) = some { c with endorsements := c.endorsements + 1 } := by
  rw [List.find?_map]
  have hpf : ((fun x => decide (x.id = cid)) ∘
      (fun x => if x.id = cid then { x with endorsements := x.endorsements + 1 } else x)) =
      (fun x : CommentRow => decide (x.id = cid)) := by
    funext e
    by_cases he : e.id = cid
    · simp [he]
    · simp [he]
  rw [hpf, h]
  have hc : c.id = cid := by simpa using List.find?_some h
  simp [hc]

/-- C4: with a non-empty identity token, the first endorsement of an
existing comment succeeds, stores exactly one endorsement row for the
`(comment, token)` pair and increments the comment counter by exactly one;
a second attempt with the same token returns the duplicate error and leaves
the state completely unchanged.  With an empty token, attempts are never
deduplicated: each one stores a row and increments the counter. -/
theorem c4_endorsement_idempotency :
    (∀ (st : SocialState) (cid name tok newId nowIso : String) (c : CommentRow),
      st.comments.find? (fun x => x.id = cid) = some c →
      st.endorsements.countP (fun e => decide (e.commentId = cid ∧ e.ipHash = tok)) = 0 →
      ¬ tok = "" →
      (endorseCommentH st cid name tok newId nowIso).1
          = EndorseResult.endorsed cid (c.endorsements + 1)
      ∧ ((endorseCommentH st cid name tok newId nowIso).2).endorsements.countP
          (fun e => decide (e.commentId = cid ∧ e.ipHash = tok)) = 1
      ∧ ((endorseCommentH st cid name tok newId nowIso).2).comments.find?
          (fun x => x.id = cid) = some { c with endorsements := c.endorsements + 1 }
      ∧ (∀ (name2 newId2 nowIso2 : String),
          endorseCommentH (endorseCommentH st cid name tok newId nowIso).2 cid name2 tok
              newId2 nowIso2
            = (EndorseResult.error ["Already endorsed this comment"],
               (endorseCommentH st cid name tok newId nowIso).2)))
    ∧ (∀ (st : SocialState) (cid name1 name2 id1 id2 t1 t2 : String) (c : CommentRow),
        st.comments.find? (fun x => x.id = cid) = some c →
        (endorseCommentH st cid name1 "" id1 t1).1
            = EndorseResult.endorsed cid (c.endorsements + 1)
        ∧ (endorseCommentH (endorseCommentH st cid name1 "" id1 t1).2 cid name2 "" id2 t2).1
            = EndorseResult.endorsed cid (c.endorsements + 2)
        ∧ ((endorseCommentH (endorseCommentH st cid name1 "" id1 t1).2 cid name2 "" id2 t2).2).endorsements.length
            = st.endorsements.length + 2) := by
  constructor
  · intro st cid name tok newId nowIso c hf hcnt htok
    have hex : st.endorsements.any (fun e => decide (e.commentId = cid ∧ e.ipHash = tok))
        = false := by
      rw [List.any_eq_false]
      intro e he
      have := List.countP_eq_zero.mp hcnt e he
      simpa using this
    have hstep : endorseCommentH st cid name tok newId nowIso =
        (EndorseResult.endorsed cid (c.endorsements + 1),
         { st with
             comments := st.comments.map (fun x =>
               if x.id = cid then { x with endorsements := x.endorsements + 1 } else x),
             endorsements := st.endorsements ++
               [{ id := newId, commentId := cid,
                  agentName := if (sanitizeText name).take 100 = "" then "Anonymous Agent"
                               else (sanitizeText name).take 100,
                  ipHash := tok, createdAt := nowIso }] }) := by
      simp only [endorseCommentH, hf]
      rw [if_neg (by rw [hex]; simp)]
      rw [find?_comments_incr st.comments cid c hf]
    refine ⟨by rw [hstep], ?_, ?_, ?_⟩
    · rw [hstep]
      rw [List.countP_append, hcnt]
      simp
    · rw [hstep]
      exact find?_comments_incr st.comments cid c hf
    · intro name2 newId2 nowIso2
      rw [hstep]
      simp only [endorseCommentH]
      rw [find?_comments_incr st.comments cid c hf]
      simp [htok]
  · intro st cid name1 name2 id1 id2 t1 t2 c hf
    have hstep1 : endorseCommentH st cid name1 "" id1 t1 =
        (EndorseResult.endorsed cid (c.endorsements + 1),
         { st with
             comments := st.comments.map (fun x =>
               if x.id = cid then { x with endorsements := x.endorsements + 1 } else x),
             endorsements := st.endorsements ++
               [{ id := id1, commentId := cid,
                  agentName := if (sanitizeText name1).take 100 = "" then "Anonymous Agent"
                               else (sanitizeText name1).take 100,
                  ipHash := "", createdAt := t1 }] }) := by
      simp only [endorseCommentH, hf]
      rw [if_neg (by simp)]
      rw [find?_comments_incr st.comments cid c hf]
    have hf2 := find?_comments_incr st.comments cid c hf
    refine ⟨by rw [hstep1], ?_, ?_⟩
    · rw [hstep1]
      simp only [endorseCommentH]
      rw [hf2]
      rw [find?_comments_incr _ cid _ hf2]
      simp
    · rw [hstep1]
      simp only [endorseCommentH]
      rw [hf2]
      rw [find?_comments_incr _ cid _ hf2]
      simp [List.length_append]

/-- Witness for C4 at a one-comment state: token `"h1"` endorses once, is
refused the second time with everything unchanged; the empty token endorses
twice. -/
theorem c4_endorsement_witness :
    (endorseCommentH ⟨[cA], [], [], []⟩ "A" "n" "h1" "e1" "t").1
        = EndorseResult.endorsed "A" 1
    ∧ endorseCommentH (endorseCommentH ⟨[cA], [], [], []⟩ "A" "n" "h1" "e1" "t").2 "A" "n" "h1"
          "e2" "t2"
        = (EndorseResult.error ["Already endorsed this comment"],
           (endorseCommentH ⟨[cA], [], [], []⟩ "A" "n" "h1" "e1" "t").2)
    ∧ (endorseCommentH (endorseCommentH ⟨[cA], [], [], []⟩ "A" "n" "" "e1" "t").2 "A" "n" ""
          "e2" "t2").1 = EndorseResult.endorsed "A" 2 := by
  have h1 := c4_endorsement_idempotency.1 ⟨[cA], [], [], []⟩ "A" "n" "h1" "e1" "t" cA
    (by decide) (by decide) (by decide)
  have h2 := c4_endorsement_idempotency.2 ⟨[cA], [], [], []⟩ "A" "n" "n" "e1" "e2" "t" "t2" cA
    (by decide)
  exact ⟨h1.1, h1.2.2.2 "n" "e2" "t2", h2.2.1⟩

/-! ## C3 — sliding-window rate limiter -/

/-- Running `_check_rate_limit` repeatedly, starting from records that are
all inside the final 60-second window and staying inside it, purges nothing
and records every allowed call while the total stays within the limit. -/
theorem rlRun_window (tok action : String) (N : ℕ) (now : ℚ) :
    ∀ (ts pre : List ℚ),
      (∀ t ∈ pre ++ ts, now - 60 < t ∧ t ≤ now) →
      pre.length + ts.length ≤ N →
      rlRun (pre.map (fun t => ⟨tok, action, t⟩)) tok action N ts
        = (pre ++ ts).map (fun t => ⟨tok, action, t⟩) := by
  intro ts
  induction ts with
  | nil =>
    intro pre h hlen
    simp [rlRun]
  | cons t rest ih =>
    intro pre h hlen
    have hmem_t : now - 60 < t ∧ t ≤ now := h t (by simp)
    have hpre : ∀ u ∈ pre, now - 60 < u ∧ u ≤ now := fun u hu => h u (by simp [hu])
    have hpurge : purgeOld (pre.map (fun u => ⟨tok, action, u⟩)) t
        = pre.map (fun u => ⟨tok, action, u⟩) := by
      apply List.filter_eq_self.mpr
      intro r hr
      simp only [List.mem_map] at hr
      obtain ⟨u, hu, rfl⟩ := hr
      have h1 := (hpre u hu).1
      have h2 := hmem_t.2
      simp only [decide_eq_true_eq]
      intro hlt
      linarith
    have hcount : countRecent (pre.map (fun u => ⟨tok, action, u⟩)) tok action t
        = pre.length := by
      unfold countRecent
      rw [List.filter_eq_self.mpr ?_]
      · simp
      · intro r hr
        simp only [List.mem_map] at hr
        obtain ⟨u, hu, rfl⟩ := hr
        have h1 := (hpre u hu).1
        have h2 := hmem_t.2
        rw [decide_eq_true_eq]
        exact ⟨rfl, rfl, by linarith⟩
    have hlt : pre.length < N := by
      simp only [List.length_cons] at hlen
      omega
    have hstep : (checkRateLimit (pre.map (fun u => ⟨tok, action, u⟩)) tok action N t).2
        = (pre ++ [t]).map (fun u => ⟨tok, action, u⟩) := by
      simp only [checkRateLimit]
      rw [hpurge, hcount]
      rw [if_neg (by omega)]
      simp
    have hre : rlRun (pre.map (fun u => ⟨tok, action, u⟩)) tok action N (t :: rest)
        = rlRun ((pre ++ [t]).map (fun u => ⟨tok, action, u⟩)) tok action N rest := by
      unfold rlRun
      rw [List.foldl_cons, hstep]
    rw [hre]
    have hperm : (pre ++ [t]) ++ rest = pre ++ (t :: rest) := by simp
    have := ih (pre ++ [t]) (by rw [hperm]; exact h)
      (by simp only [List.length_append, List.length_cons, List.length_nil] at hlen ⊢; omega)
    rw [hperm] at this
    exact this

/-- C3: (a) starting from an empty table, N calls for one token/action at
times inside the final 60-second window are all recorded, and the (N+1)-th
call at `now` returns `false` with the table unchanged — nothing is
inserted and nothing is purged; (b) a call never counts records that lie
more than 60 seconds in its past: if every record for the token/action pair
is older than that, the call is allowed; (c) `post_comment` with an empty
network address never consults or changes the rate-limit table and never
reports the rate-limited error, whatever the hash function does. -/
theorem c3_rate_limiter :
    (∀ (tok action : String) (N : ℕ) (ts : List ℚ) (now : ℚ),
      ts.length = N →
      (∀ t ∈ ts, now - 60 < t ∧ t ≤ now) →
      rlRun [] tok action N ts = ts.map (fun t => ⟨tok, action, t⟩)
      ∧ checkRateLimit (ts.map (fun t => ⟨tok, action, t⟩)) tok action N now
          = (false, ts.map (fun t => ⟨tok, action, t⟩)))
    ∧ (∀ (rl : List RateLimitRecord) (tok action : String) (N : ℕ) (now : ℚ),
        0 < N →
        (∀ r ∈ rl, r.ipHash = tok → r.action = action → 60 < now - r.timestamp) →
        (checkRateLimit rl tok action N now).1 = true)
    ∧ (∀ (st : SocialState) (hashFn : String → String)
        (articleSlug body agentName model operator parentId commenterType userAgent : String)
        (now : ℚ) (nowIso newId : String),
        ((postComment st hashFn articleSlug body agentName model operator parentId
            commenterType "" userAgent now nowIso newId).2).rateLimits = st.rateLimits
        ∧ (∀ errs, (postComment st hashFn articleSlug body agentName model operator parentId
              commenterType "" userAgent now nowIso newId).1 = PostCommentResult.error errs →
            ¬ "Rate limited. Max 10 comments per minute." ∈ errs)) := by
  refine ⟨?_, ?_, ?_⟩
  · intro tok action N ts now hlen hwin
    have hrun : rlRun [] tok action N ts = ts.map (fun t => ⟨tok, action, t⟩) := by
      have := rlRun_window tok action N now ts [] (by simpa using hwin) (by simp [hlen])
      simpa using this
    refine ⟨hrun, ?_⟩
    have hpurge : purgeOld (ts.map (fun t => ⟨tok, action, t⟩)) now
        = ts.map (fun t => ⟨tok, action, t⟩) := by
      apply List.filter_eq_self.mpr
      intro r hr
      simp only [List.mem_map] at hr
      obtain ⟨u, hu, rfl⟩ := hr
      have h1 := (hwin u hu).1
      simp only [decide_eq_true_eq]
      intro hlt
      linarith
    have hcount : countRecent (ts.map (fun t => ⟨tok, action, t⟩)) tok action now = N := by
      unfold countRecent
      rw [List.filter_eq_self.mpr ?_]
      · simp [hlen]
      · intro r hr
        simp only [List.mem_map] at hr
        obtain ⟨u, hu, rfl⟩ := hr
        rw [decide_eq_true_eq]
        exact ⟨rfl, rfl, (hwin u hu).1⟩
    simp only [checkRateLimit]
    rw [hpurge, hcount]
    rw [if_pos (le_refl N)]
  · intro rl tok action N now hN hsep
    have hcount : countRecent (purgeOld rl now) tok action now = 0 := by
      unfold countRecent
      rw [List.length_eq_zero]
      rw [List.filter_eq_nil_iff]
      intro r hr
      have hrs : r ∈ rl := List.mem_of_mem_filter hr
      simp only [decide_eq_true_eq]
      rintro ⟨h1, h2, h3⟩
      have := hsep r hrs h1 h2
      linarith
    simp only [checkRateLimit]
    rw [hcount]
    rw [if_neg (by omega)]
  · intro st hashFn articleSlug body agentName model operator parentId commenterType
      userAgent now nowIso newId
    constructor
    · simp only [postComment, if_true]
      split_ifs <;> rfl
    · intro errs herr hmem
      simp only [postComment, if_true, if_false] at herr
      have hnotin : ∀ (L : List String), L = errs →
          (∀ x ∈ L, x = "Comment must be at least 10 characters"
            ∨ x = "article_slug is required"
            ∨ x = ("parent_id \x27" ++ parentId ++ "\x27 not found")) →
          False := by
        intro L hLe hL
        have hx := hL _ (hLe ▸ hmem)
        rcases hx with h | h | h
        · exact absurd h (by decide)
        · exact absurd h (by decide)
        · have h0 : ("parent_id \x27" ++ parentId ++ "\x27 not found").data.head?
              = some 'p' := rfl
          rw [← h] at h0
          exact absurd h0 (by decide)
      split_ifs at herr
      all_goals try exact (‹False›).elim
      all_goals try exact ‹(([] : List String) ++ [] ++ []) ≠ []› rfl
      all_goals try (simp at herr)
      all_goals refine hnotin _ herr ?_
      all_goals intro x hx
      all_goals fin_cases hx
      all_goals first
        | exact Or.inl rfl
        | exact Or.inr (Or.inl rfl)
        | exact Or.inr (Or.inr rfl)

/-- Witness for C3: limit 2 — two calls at times 0 and 1 fill the window
and the third call at time 1 is refused with the table unchanged; a single
stale record 120 seconds old does not count at time 0; a `post_comment`
with an empty address leaves the rate-limit table empty. -/
theorem c3_rate_limiter_witness :
    checkRateLimit [⟨"h", "comment", 0⟩, ⟨"h", "comment", 1⟩] "h" "comment" 2 1
        = (false, [⟨"h", "comment", 0⟩, ⟨"h", "comment", 1⟩])
    ∧ (checkRateLimit [⟨"h", "comment", -120⟩] "h" "comment" 1 0).1 = true
    ∧ ((postComment ⟨[], [], [], []⟩ (fun _ => "zz") "s" "a valid comment body" "n" "" "" "" ""
          "" "ua" 5 "t0" "c1").2).rateLimits = [] := by
  refine ⟨?_, ?_, ?_⟩
  · exact (c3_rate_limiter.1 "h" "comment" 2 [0, 1] 1 rfl
      (by intro t ht; fin_cases ht <;> constructor <;> norm_num)).2
  · exact c3_rate_limiter.2.1 [⟨"h", "comment", -120⟩] "h" "comment" 1 0 (by norm_num)
      (by intro r hr h1 h2; fin_cases hr; norm_num)
  · exact (c3_rate_limiter.2.2 ⟨[], [], [], []⟩ (fun _ => "zz") "s" "a valid comment body" "n"
      "" "" "" "" "ua" 5 "t0" "c1").1

/-! ## C9 — leaderboard membership is decided by comment count -/

/-- C9 amended: for a nonnegative requested bound `N`, the SQL query
selects exactly the first `min(N, 100)` named-agent groups of the
comment-count-descending order (the effective bound is capped at 100, and
SQLite's tie order is modelled by the stable sort), and the returned
leaderboard is a permutation of that selection re-sorted by score
descending — so membership is decided by comment count alone, and an agent
outside the selection never appears, regardless of its score. -/
theorem c9_leaderboard_amended (comments : List CommentRow) (citations : List CitationRow)
    (limit : ℤ) (h : 0 ≤ limit) :
    leaderboardSelected comments citations limit
      = (((groupNames comments).map (statFor comments citations)).insertionSort countGe).take
          (min limit 100).toNat
    ∧ (getAgentLeaderboard comments citations limit).Perm
        (leaderboardSelected comments citations limit)
    ∧ List.Sorted scoreGe (getAgentLeaderboard comments citations limit)
    ∧ (∀ x : AgentStat, x ∉ leaderboardSelected comments citations limit →
        x ∉ getAgentLeaderboard comments citations limit) := by
  have h1 : (0 : ℤ) ≤ min limit 100 := le_min h (by norm_num)
  refine ⟨?_, ?_, ?_, ?_⟩
  · unfold leaderboardSelected
    rw [if_neg (not_lt.mpr h1)]
  · exact List.perm_insertionSort scoreGe _
  · exact List.sorted_insertionSort scoreGe _
  · intro x hx hmem
    exact hx ((List.perm_insertionSort scoreGe _).mem_iff.mp hmem)

/-- Witness for C9 (amended) on a two-comment, one-agent ledger. -/
theorem c9_leaderboard_witness :
    leaderboardSelected [cA, cB] [] 10
      = (((groupNames [cA, cB]).map (statFor [cA, cB] [])).insertionSort countGe).take
          (min (10 : ℤ) 100).toNat
    ∧ List.Sorted scoreGe (getAgentLeaderboard [cA, cB] [] 10) :=
  ⟨(c9_leaderboard_amended [cA, cB] [] 10 (by norm_num)).1,
   (c9_leaderboard_amended [cA, cB] [] 10 (by norm_num)).2.2.1⟩

/-- Counterexample to C9 as stated: with 101 named agents, each with one
comment (so every agent is among "the agents with the most comments"), a
request with bound `N = 101` returns only `min(101, 100) = 100` agents;
agent `a100` ties the maximal comment count yet never appears.  The
returned set is therefore not "exactly the (at most N) agents with the
most comments". -/
theorem c9_leaderboard_cx :
    "a100" ∈ groupNames commentsLB
    ∧ (groupNames commentsLB).length = 101
    ∧ (getAgentLeaderboard commentsLB [] 101).length = 100
    ∧ ∀ y ∈ getAgentLeaderboard commentsLB [] 101, ¬ y.agentName = "a100" := by
  decide

end TAT
